import Mathlib

/-!
Shallow embedding of the scraper engine of `arbitrage_bot`
(`src/scraper/instruction_handlers.py`, `src/scraper/scraper_pipeline.py`,
`src/scraper/processor_registry.py`, `src/scraper/config_schema.py`).

Python dynamic values that flow through the JSON pipeline are modelled by
the inductive `Json` (with `Json.null` standing for Python `None`); Python
exceptions are modelled by `Except` with the exception class recorded in
`PyErr`.  Browser/page effects are abstracted as oracle records whose
operations return `Except`-values exactly where the Python code awaits a
Playwright call that may raise.
-/

/-- Python's substring test `needle in hay` needs a starts-with helper:
does `hay` start with `needle`? -/
def listStartsWith (hay needle : List Char) : Bool :=
  match hay, needle with
  | _, [] => true
  | [], _ :: _ => false
  | c :: cs, d :: ds => c == d && listStartsWith cs ds

/-- Python's substring containment `needle in hay` on strings. -/
def listContainsSub (hay needle : List Char) : Bool :=
  if listStartsWith hay needle then true
  else
    match hay with
    | [] => false
    | _ :: t => listContainsSub t needle

/-- `needle in hay` for Lean strings. -/
def strContainsSub (hay needle : String) : Bool :=
  listContainsSub hay.toList needle.toList

/-- Python `s.split(sep)` on a character list (one-character separator). -/
def splitChars (sep : Char) : List Char → List (List Char)
  | [] => [[]]
  | c :: cs =>
    let r := splitChars sep cs
    if c == sep then [] :: r
    else
      match r with
      | [] => [[c]]
      | g :: gs => (c :: g) :: gs

/-- Python `s.split(sep)` for strings. -/
def pySplit (s : String) (sep : Char) : List String :=
  (splitChars sep s.toList).map String.mk

/-- Python `s.split(sep, 1)` on a character list: the part before the
first separator and the part after it. -/
def splitOnceChars (sep : Char) : List Char → List Char × List Char
  | [] => ([], [])
  | c :: cs =>
    if c == sep then ([], cs)
    else
      let r := splitOnceChars sep cs
      (c :: r.1, r.2)

/-- Python `s.split(sep, 1)` for strings (second component empty when the
separator is absent). -/
def pySplitOnce (s : String) (sep : Char) : String × String :=
  let r := splitOnceChars sep s.toList
  (String.mk r.1, String.mk r.2)

/-- Python `c in s` for a single character. -/
def pyContainsChar (s : String) (c : Char) : Bool :=
  s.toList.any (fun d => d == c)

/-- Python `s.startswith(pre)`. -/
def pyStartsWith (s pre : String) : Bool :=
  listStartsWith s.toList pre.toList

/-- Python `s.endswith(suf)`. -/
def pyEndsWith (s suf : String) : Bool :=
  listStartsWith s.toList.reverse suf.toList.reverse

/-- Python `s[n:]`. -/
def pyDrop (s : String) (n : Nat) : String :=
  String.mk (s.toList.drop n)

/-- Python `s[:-n]` (for `n ≤ len(s)`). -/
def pyDropRight (s : String) (n : Nat) : String :=
  String.mk (s.toList.take (s.toList.length - n))

/-- Python `s.strip()`. -/
def pyStrip (s : String) : String :=
  String.mk
    (((s.toList.dropWhile Char.isWhitespace).reverse.dropWhile
      Char.isWhitespace).reverse)

/-- Digits of a decimal literal, most significant first. -/
def digitsToNatGo (acc : Nat) : List Char → Option Nat
  | [] => some acc
  | c :: cs =>
    if c.isDigit then digitsToNatGo (acc * 10 + (c.toNat - '0'.toNat)) cs
    else none

/-- A non-empty all-digit character list as a number. -/
def digitsToNat : List Char → Option Nat
  | [] => none
  | cs => digitsToNatGo 0 cs

/-- Python `int(s)`: strips whitespace, accepts an optional sign followed
by decimal digits. -/
def pyIntParse (s : String) : Option Int :=
  match (pyStrip s).toList with
  | '-' :: rest => (digitsToNat rest).map (fun n => -(n : Int))
  | '+' :: rest => (digitsToNat rest).map (fun n => (n : Int))
  | cs => (digitsToNat cs).map (fun n => (n : Int))

/-- Python `s.lower()`. -/
def pyLower (s : String) : String :=
  String.mk (s.toList.map Char.toLower)

/-- JSON values as produced by `json.loads`; `null` doubles as Python `None`. -/
inductive Json where
  | null
  | bool (b : Bool)
  | num (n : Int)
  | str (s : String)
  | arr (xs : List Json)
  | obj (kvs : List (String × Json))

/-- Python exception classes relevant to the extractor's `except` clauses.
`other` stands for any exception outside the caught tuple
(`KeyError, IndexError, TypeError, ValueError`). -/
inductive PyErr where
  | keyError
  | indexError
  | typeError
  | valueError
  | other
deriving DecidableEq

/-- Python truthiness of a JSON value (`if not container_data`). -/
def Json.pyTruthy : Json → Bool
  | .null => false
  | .bool b => b
  | .num n => n != 0
  | .str s => !s.isEmpty
  | .arr xs => !xs.isEmpty
  | .obj kvs => !kvs.isEmpty

/-- Whether a JSON value is Python `None`. -/
def Json.isNull : Json → Bool
  | .null => true
  | _ => false

/-- Python `list(data)`: lists copy, dicts iterate their (string) keys,
strings iterate their characters; other values raise `TypeError`. -/
def pyToList : Json → Except PyErr (List Json)
  | .arr xs => .ok xs
  | .obj kvs => .ok (kvs.map (fun kv => Json.str kv.1))
  | .str s => .ok (s.toList.map (fun c => Json.str (String.mk [c])))
  | _ => .error .typeError

/-- Python `data[name]` with a string subscript: dict lookup
(missing key raises `KeyError`); every other value raises `TypeError`. -/
def pyGetField : Json → String → Except PyErr Json
  | .obj kvs, k =>
    match kvs.lookup k with
    | some v => .ok v
    | none => .error .keyError
  | _, _ => .error .typeError

/-- Python `data[index]` with an int subscript: lists and strings index
(negative indices from the end, out of range raises `IndexError`);
a dict with string keys raises `KeyError`; other values `TypeError`. -/
def pyGetIndex : Json → Int → Except PyErr Json
  | .arr xs, i =>
    let j : Int := if i < 0 then i + xs.length else i
    if 0 ≤ j && j < (xs.length : Int) then .ok (xs.getD j.toNat .null)
    else .error .indexError
  | .str s, i =>
    let cs := s.toList
    let j : Int := if i < 0 then i + cs.length else i
    if 0 ≤ j && j < (cs.length : Int) then
      .ok (Json.str (String.mk [cs.getD j.toNat ' ']))
    else .error .indexError
  | .obj _, _ => .error .keyError
  | _, _ => .error .typeError

/-- Python slice normalisation and `xs[start:stop]` on a list. -/
def pySlice {α : Type} (xs : List α) (start stop : Option Int) : List α :=
  let n : Int := xs.length
  let norm : Int → Option Int → Int := fun d o =>
    match o with
    | none => d
    | some i => if i < 0 then max (n + i) 0 else min i n
  let s := norm 0 start
  let e := norm n stop
  (xs.drop s.toNat).take (e - s).toNat

/-- Python `list(data[start:end])`: lists and strings are sliceable,
anything else raises `TypeError`. -/
def pySliceList : Json → Option Int → Option Int → Except PyErr (List Json)
  | .arr xs, s, e => .ok (pySlice xs s e)
  | .str str, s, e =>
    .ok ((pySlice str.toList s e).map (fun c => Json.str (String.mk [c])))
  | _, _, _ => .error .typeError

/-- Python `int(s)`: strips whitespace, accepts an optional sign,
raises `ValueError` otherwise. -/
def pyInt (s : String) : Except PyErr Int :=
  match pyIntParse s with
  | some n => .ok n
  | none => .error .valueError

/-- Exception-propagating sequencing of two Python operations (an
exception in the first skips the second). -/
def exBind {α β : Type} (r : Except PyErr α) (f : α → Except PyErr β) :
    Except PyErr β :=
  match r with
  | .error e => .error e
  | .ok x => f x

/-- Python `int(parts[k]) if parts[k] else None` for a slice bound. -/
def parseBound (p : String) : Except PyErr (Option Int) :=
  if p = "" then .ok none else exBind (pyInt p) (fun n => .ok (some n))

/-- Body of `JSONPathExtractor._handle_array_access` before its `except`
clause: `[*]` copies, `[a:b]` slices, `[i]` indexes. -/
def handleArrayAccessExc (data : Json) (arraySpec : String) : Except PyErr Json :=
  let spec := pyDropRight (pyDrop arraySpec 1) 1
  if spec == "*" then
    exBind (pyToList data) (fun l => .ok (Json.arr l))
  else if pyContainsChar spec ':' then
    let parts := pySplit spec ':'
    exBind (parseBound (parts.getD 0 "")) (fun start =>
      exBind (parseBound (parts.getD 1 "")) (fun stop =>
        exBind (pySliceList data start stop) (fun l => .ok (Json.arr l))))
  else
    exBind (pyInt spec) (fun i => pyGetIndex data i)

/-- `JSONPathExtractor._handle_array_access`: catches
`(ValueError, IndexError, TypeError)` and returns `None`;
a `KeyError` (dict indexed by int) propagates to the caller. -/
def handleArrayAccess (data : Json) (arraySpec : String) : Except PyErr Json :=
  match handleArrayAccessExc data arraySpec with
  | .ok v => .ok v
  | .error .valueError => .ok Json.null
  | .error .indexError => .ok Json.null
  | .error .typeError => .ok Json.null
  | .error e => .error e

/-- One `part` of the dotted path in `JSONPathExtractor.extract`:
`field[..]` does the field access (skipped for an empty field name) then
the array access, a plain part is a field access. -/
def processPart (current : Json) (part : String) : Except PyErr Json :=
  if pyContainsChar part '[' && pyContainsChar part ']' then
    let fa := pySplitOnce part '['
    exBind (if fa.1 = "" then Except.ok current else pyGetField current fa.1)
      (fun cur => handleArrayAccess cur ("[" ++ fa.2))
  else
    pyGetField current part

/-- The `for part in parts` loop of `JSONPathExtractor.extract`. -/
def foldParts (parts : List String) (current : Json) : Except PyErr Json :=
  match parts with
  | [] => .ok current
  | p :: rest => exBind (processPart current p) (fun c => foldParts rest c)

/-- Body of `JSONPathExtractor.extract` before its `except` clause. -/
def extractInner (data : Json) (path : String) : Except PyErr Json :=
  let path := if pyStartsWith path "$" then pyDrop path 1 else path
  if path = "" then .ok data
  else if pyStartsWith path "[" && pyEndsWith path "]" then
    handleArrayAccess data path
  else
    let path := if pyStartsWith path "." then pyDrop path 1 else path
    foldParts (pySplit path '.') data

/-- `JSONPathExtractor.extract`: any caught extraction failure yields
`None` (`Json.null`). -/
def extract (data : Json) (path : String) : Json :=
  match extractInner data path with
  | .ok v => v
  | .error _ => Json.null

/-- `extract` with the `except (KeyError, IndexError, TypeError, ValueError)`
clause made explicit: an exception of any other class would propagate as
`.error`. -/
def extractChecked (data : Json) (path : String) : Except PyErr Json :=
  match extractInner data path with
  | .ok v => .ok v
  | .error .keyError => .ok Json.null
  | .error .indexError => .ok Json.null
  | .error .typeError => .ok Json.null
  | .error .valueError => .ok Json.null
  | .error e => .error e

/-- The value of a `WaitCondition`, `Union[str, int]` in the schema. -/
inductive CondValue where
  | s (v : String)
  | i (v : Int)

/-- The `Literal` tag of a `WaitCondition`. -/
inductive CondType where
  | timeout
  | selector
  | url_contains
  | element_count

/-- `config_schema.WaitCondition`. -/
structure WaitCondition where
  type : CondType
  value : CondValue
  timeout_ms : Option Int := some 30000

/-- A Playwright exception: the timeout error or any other class. -/
inductive PwErr where
  | timeout
  | other

/-- Page-level oracles used by the condition evaluator: the current URL,
`page.wait_for_selector` (ok = became visible in time, error = timeout or
another exception), and the length of `page.query_selector_all(sel)`
(error = the call raised). -/
structure PageEnv where
  url : String
  waitForSelector : String → Except PwErr Unit
  queryAllCount : String → Except Unit Nat

/-- `InstructionHandler.handle_wait_condition`: branches on the condition
type; every internal exception is caught and turned into `false`
(a condition value of the wrong Python type raises inside the branch —
e.g. `value / 1000.0` on a string — and is likewise caught). -/
def handle_wait_condition (p : PageEnv) (c : WaitCondition) : Bool :=
  match c.type with
  | .timeout =>
    match c.value with
    | .i _ => true
    | .s _ => false
  | .selector =>
    match c.value with
    | .s sel =>
      match p.waitForSelector sel with
      | .ok _ => true
      | .error _ => false
    | .i _ => false
  | .url_contains =>
    match c.value with
    | .s sub => strContainsSub p.url sub
    | .i _ => false
  | .element_count =>
    match c.value with
    | .s sel =>
      match p.queryAllCount sel with
      | .ok n => decide (0 < n)
      | .error _ => false
    | .i _ => false

/-- Modelled from the spec: `ElementCountAtLeast(selector, count)` is true
iff the number of elements matching `selector` is at least `target`;
an evaluator-internal error counts as "not met". -/
def elementCountAtLeastSpec (p : PageEnv) (sel : String) (target : Nat) : Bool :=
  match p.queryAllCount sel with
  | .ok n => decide (target ≤ n)
  | .error _ => false

/-- One entry of a processor chain as accepted by
`ProcessorRegistry.process_value`: a bare name, a dict with optional
`name` and `args`, or any other (invalid) Python value. -/
inductive ProcCfg where
  | nameOnly (n : String)
  | withArgs (n : Option String) (args : List (String × String))
  | invalid

/-- Keyword arguments passed to a processor. -/
abbrev Args := List (String × String)

/-- A processor registry: `ProcessorRegistry.get`, name to implementation;
an implementation receives the value and the merged kwargs and may raise. -/
abbrev Registry (α : Type) := String → Option (α → Args → Except Unit α)

/-- Python `{**context, **processor_args}`: `processor_args` wins on key
clashes. -/
def mergeArgs (ctx args : Args) : Args :=
  ctx.filter (fun kv => !(args.any (fun kv2 => kv2.1 == kv.1))) ++ args

/-- Resolution of one chain entry against the registry, applied to the
current value: `none` when the entry is invalid, has no name, or names an
unknown processor (all skipped with a warning in the source). -/
def resolveStep {α : Type} (reg : Registry α) (ctx : Args) (cfg : ProcCfg)
    (w : α) : Option (Except Unit α) :=
  match cfg with
  | .invalid => none
  | .nameOnly n => (reg n).map (fun f => f w (mergeArgs ctx []))
  | .withArgs none _ => none
  | .withArgs (some n) args => (reg n).map (fun f => f w (mergeArgs ctx args))

/-- The body of the `for processor_config in processors` loop of
`ProcessorRegistry.process_value`: a skipped or failing step leaves the
current value unchanged (the `except` clause logs and continues). -/
def stepFn {α : Type} (reg : Registry α) (ctx : Args) (w : α) (cfg : ProcCfg) : α :=
  match resolveStep reg ctx cfg w with
  | none => w
  | some (.ok v) => v
  | some (.error _) => w

/-- `ProcessorRegistry.process_value`. -/
def process_value {α : Type} (reg : Registry α) (ctx : Args) (value : α)
    (processors : List ProcCfg) : α :=
  processors.foldl (stepFn reg ctx) value

/-- Modelled from the spec: the short-circuiting chain the spec describes —
"if a step throws, the chain short-circuits and the last successfully
produced value is kept". -/
def process_value_spec {α : Type} (reg : Registry α) (ctx : Args) (value : α) :
    List ProcCfg → α
  | [] => value
  | cfg :: rest =>
    match resolveStep reg ctx cfg value with
    | none => process_value_spec reg ctx value rest
    | some (.ok v) => process_value_spec reg ctx v rest
    | some (.error _) => value

/-- Environment of `InstructionExecutor`: the `type` tag of an instruction
and the `self.handlers` table.  A handler mutates the context (Python
mutations survive a raised exception, so the post state is returned in
both cases) and either returns a boolean or raises. -/
structure ExecEnv (ι σ : Type) where
  typeOf : ι → String
  table : String → Option (ι → σ → (Except Unit Bool) × σ)

/-- `InstructionExecutor.execute_instruction`: unknown type gives `False`;
`handler.execute` is wrapped in `try/except` and an exception becomes
`False`. -/
def execute_instruction {ι σ : Type} (env : ExecEnv ι σ) (i : ι) (s : σ) :
    Bool × σ :=
  match env.table (env.typeOf i) with
  | none => (false, s)
  | some h =>
    match h i s with
    | (.ok b, s2) => (b, s2)
    | (.error _, s2) => (false, s2)

/-- `InstructionExecutor.execute_instructions`: strictly in order, a false
result only logs a warning, and the function returns `True` at the end. -/
def execute_instructions {ι σ : Type} (env : ExecEnv ι σ) :
    List ι → σ → Bool × σ
  | [], s => (true, s)
  | i :: rest, s => execute_instructions env rest (execute_instruction env i s).2

/-- `config_schema.LoopInstruction` (the fields the loop handler reads).
`max_iterations` defaults to 100 in the schema. -/
structure LoopInstruction where
  iterator : String
  max_iterations : Nat := 100
  break_condition : Option WaitCondition := none
  next_selector : Option String := none
  dropdown_selector : Option String := none
  skip_first_option : Bool := false
  count : Option Nat := none
  while_condition : Option WaitCondition := none

/-- Outcome of the pagination page block (query the next button, check
`is_enabled`, click): the three non-raising outcomes. -/
inductive PagOutcome where
  | notFound
  | disabled
  | clicked

/-- Oracles for `LoopHandler`: run the nested instruction list (never
raises, claim C2), evaluate a wait condition on the evolving session
state (never raises), and the per-strategy page interactions that may
raise. -/
structure LoopEnv (σ : Type) where
  runBody : σ → σ
  evalCond : WaitCondition → σ → Bool × σ
  pagStep : σ → (Except Unit PagOutcome) × σ
  getOptions : σ → (Except Unit (List String)) × σ
  selectOpt : String → Nat → σ → (Except Unit Unit) × σ
  setLoopIndex : Nat → σ → σ

/-- The `while counter < max_iterations` loop of
`LoopHandler._handle_pagination_loop`, with `fuel = max_iterations -
counter`; the returned `Nat` counts executions of the nested instruction
list. -/
def paginationLoop {σ : Type} (env : LoopEnv σ) (inst : LoopInstruction) :
    Nat → σ → σ × Nat
  | 0, s => (s, 0)
  | fuel + 1, s =>
    let s1 := env.runBody s
    let bs :=
      match inst.break_condition with
      | none => (false, s1)
      | some bc => env.evalCond bc s1
    if bs.1 then (bs.2, 1)
    else
      match env.pagStep bs.2 with
      | (.error _, s3) => (s3, 1)
      | (.ok .notFound, s3) => (s3, 1)
      | (.ok .disabled, s3) => (s3, 1)
      | (.ok .clicked, s3) =>
        let r := paginationLoop env inst fuel s3
        (r.1, r.2 + 1)

/-- `LoopHandler._handle_pagination_loop` (an absent or empty
`next_selector` is falsy and returns `False` with no body run). -/
def pagination_execute {σ : Type} (env : LoopEnv σ) (inst : LoopInstruction)
    (s : σ) : Bool × σ × Nat :=
  match inst.next_selector with
  | none => (false, s, 0)
  | some ns =>
    if ns = "" then (false, s, 0)
    else
      let r := paginationLoop env inst inst.max_iterations s
      (true, r.1, r.2)

/-- The `for i, option in enumerate(options[start:], start)` loop of
`LoopHandler._handle_dropdown_loop`; an exception while selecting an
option escapes to the handler's `except` and the loop reports `false`. -/
def dropdownBody {σ : Type} (env : LoopEnv σ) (inst : LoopInstruction) :
    List String → Nat → Nat → σ → σ × Nat × Bool
  | [], _, _, s => (s, 0, true)
  | opt :: rest, i, counter, s =>
    if inst.max_iterations ≤ counter then (s, 0, true)
    else
      match env.selectOpt opt i s with
      | (.error _, s2) => (s2, 0, false)
      | (.ok _, s2) =>
        let s3 := env.runBody s2
        let r := dropdownBody env inst rest (i + 1) (counter + 1) s3
        (r.1, r.2.1 + 1, r.2.2)

/-- `LoopHandler._handle_dropdown_loop`. -/
def dropdown_execute {σ : Type} (env : LoopEnv σ) (inst : LoopInstruction)
    (s : σ) : Bool × σ × Nat :=
  match inst.dropdown_selector with
  | none => (false, s, 0)
  | some ds =>
    if ds = "" then (false, s, 0)
    else
      match env.getOptions s with
      | (.error _, s2) => (false, s2, 0)
      | (.ok opts, s2) =>
        let start := if inst.skip_first_option then 1 else 0
        let r := dropdownBody env inst (opts.drop start) start 0 s2
        (r.2.2, r.1, r.2.1)

/-- The `for i in range(count)` loop of `LoopHandler._handle_count_loop`. -/
def countLoopGo {σ : Type} (env : LoopEnv σ) (inst : LoopInstruction) :
    Nat → Nat → Nat → σ → σ × Nat
  | 0, _, _, s => (s, 0)
  | n + 1, i, counter, s =>
    if inst.max_iterations ≤ counter then (s, 0)
    else
      let s1 := env.runBody (env.setLoopIndex i s)
      let r := countLoopGo env inst n (i + 1) (counter + 1) s1
      (r.1, r.2 + 1)

/-- `LoopHandler._handle_count_loop` (`if not instruction.count` treats a
missing or zero count as an error). -/
def count_execute {σ : Type} (env : LoopEnv σ) (inst : LoopInstruction)
    (s : σ) : Bool × σ × Nat :=
  match inst.count with
  | none => (false, s, 0)
  | some 0 => (false, s, 0)
  | some c =>
    let r := countLoopGo env inst c 0 0 s
    (true, r.1, r.2)

/-- The `while counter < max_iterations` loop of
`LoopHandler._handle_while_loop`, with `fuel = max_iterations - counter`. -/
def whileLoopGo {σ : Type} (env : LoopEnv σ) (wc : WaitCondition) :
    Nat → σ → σ × Nat
  | 0, s => (s, 0)
  | fuel + 1, s =>
    let cs := env.evalCond wc s
    if !cs.1 then (cs.2, 0)
    else
      let s2 := env.runBody cs.2
      let r := whileLoopGo env wc fuel s2
      (r.1, r.2 + 1)

/-- `LoopHandler._handle_while_loop`. -/
def while_execute {σ : Type} (env : LoopEnv σ) (inst : LoopInstruction)
    (s : σ) : Bool × σ × Nat :=
  match inst.while_condition with
  | none => (false, s, 0)
  | some wc =>
    let r := whileLoopGo env wc inst.max_iterations s
    (true, r.1, r.2)

/-- A collected record: field name to extracted value, in field order. -/
abbrev Rec := List (String × Json)

/-- `config_schema.FieldConfig.selector`: `Union[str, List[str]]`. -/
inductive SelSpec where
  | one (s : String)
  | many (ss : List String)

/-- `config_schema.FieldConfig`. -/
structure FieldConfig where
  selector : SelSpec
  attr : String := "text"
  processors : List ProcCfg := []
  required : Bool := false
  default : Option String := none

/-- `config_schema.CollectInstruction` (fields are an ordered dict). -/
structure CollectInstruction where
  name : String
  container_selector : String
  item_selector : String
  fields : List (String × FieldConfig) := []
  limit : Option Int := none

/-- DOM oracles for element handling: `query_selector_all`,
`query_selector`, `text_content`, `get_attribute`; each models an awaited
Playwright call that may raise. -/
structure Dom (ε : Type) where
  queryAll : ε → String → Except Unit (List ε)
  query : ε → String → Except Unit (Option ε)
  textContent : ε → Except Unit (Option String)
  getAttr : ε → String → Except Unit (Option String)

/-- The `for selector in field_config.selector` loop of
`CollectHandler._extract_field`: the first selector that resolves to an
element wins; a raising selector is skipped (`except: continue`);
completing the loop without a match falls into the `else` clause. -/
def firstMatch {ε : Type} (d : Dom ε) (e : ε) : List String → Option ε
  | [] => none
  | sel :: rest =>
    match d.query e sel with
    | .error _ => firstMatch d e rest
    | .ok none => firstMatch d e rest
    | .ok (some t) => some t

/-- Body of the `try` in `CollectHandler._extract_field`: resolve the
target, read `text` or the named attribute (`or ""` on a `None` read),
strip.  An `.error` is an exception reaching the outer `except`. -/
def extractFieldRaw {ε : Type} (d : Dom ε) (e : ε) (cfg : FieldConfig) :
    Except Unit String :=
  match (match cfg.selector with
         | .many ss => Except.ok (firstMatch d e ss)
         | .one s => d.query e s) with
  | .error err => .error err
  | .ok none => .ok (cfg.default.getD "")
  | .ok (some t) =>
    match (if cfg.attr = "text" then d.textContent t else d.getAttr t cfg.attr) with
    | .error err => .error err
    | .ok v? => .ok (pyStrip (v?.getD ""))

/-- `CollectHandler._extract_field`: the outer `except` turns any
exception into `field_config.default or ""`. -/
def extract_field {ε : Type} (d : Dom ε) (e : ε) (cfg : FieldConfig) : String :=
  match extractFieldRaw d e cfg with
  | .ok v => v
  | .error _ => cfg.default.getD ""

/-- Python `instruction.limit and len(collected_items) >= instruction.limit`:
a limit of `None` or `0` is falsy and applies no cap. -/
def limitReached (lim : Option Int) (len : Nat) : Bool :=
  match lim with
  | none => false
  | some n => n != 0 && n ≤ (len : Int)

/-- The shared shape of the item loops in `CollectHandler.execute` and
`ScraperPipeline._process_json_collection`: before each item, break when
the limit is reached, else append one record. -/
def limitedCollect {α : Type} (lim : Option Int) (mk : α → Rec)
    (acc : List Rec) : List α → List Rec
  | [] => acc
  | x :: xs =>
    if limitReached lim acc.length then acc
    else limitedCollect lim mk (acc ++ [mk x]) xs

/-- One DOM record: each configured field through
`CollectHandler._extract_field` (which never raises, so the per-field
`except` in `execute` is unreachable). -/
def mkDomRec {ε : Type} (d : Dom ε) (inst : CollectInstruction) (item : ε) :
    Rec :=
  inst.fields.map (fun nc => (nc.1, Json.str (extract_field d item nc.2)))

/-- The `for container in containers` loop of `CollectHandler.execute`:
a raising item query aborts through the handler's `except` (nothing is
stored); after each container the limit check may break out, and the
collection is stored at the end. -/
def collectContainers {ε : Type} (d : Dom ε) (inst : CollectInstruction)
    (acc : List Rec) : List ε → Bool × Option (List Rec)
  | [] => (true, some acc)
  | c :: rest =>
    match d.queryAll c inst.item_selector with
    | .error _ => (false, none)
    | .ok items =>
      let acc2 := limitedCollect inst.limit (mkDomRec d inst) acc items
      if limitReached inst.limit acc2.length then (true, some acc2)
      else collectContainers d inst acc2 rest

/-- `CollectHandler.execute` in DOM mode, started at the page root:
returns the handler's boolean and the collection stored into
`context.collected_data` (`none` when nothing was stored). -/
def collect_execute {ε : Type} (d : Dom ε) (root : ε)
    (inst : CollectInstruction) : Bool × Option (List Rec) :=
  match d.queryAll root inst.container_selector with
  | .error _ => (false, none)
  | .ok [] => (true, none)
  | .ok containers => collectContainers d inst [] containers

/-- Number of records a collect run produced. -/
def producedCount : Bool × Option (List Rec) → Nat
  | (_, none) => 0
  | (_, some l) => l.length

/-- Default value of a field in JSON mode: `field_config.default or ""`. -/
def jsonDefault (cfg : FieldConfig) : Json :=
  Json.str (cfg.default.getD "")

/-- One field of a JSON-mode record
(`ScraperPipeline._process_json_collection`): extract by path, run the
processor chain when one is configured and the value is not `None`, fall
back to the default on `None`.  A list-valued selector makes
`path.startswith` raise `AttributeError`, which the per-field `except`
turns into the default. -/
def jsonFieldValue (reg : Registry Json) (baseUrl : String) (item : Json)
    (cfg : FieldConfig) : Json :=
  match cfg.selector with
  | .many _ => jsonDefault cfg
  | .one path =>
    let v := extract item path
    let v :=
      if !cfg.processors.isEmpty && !v.isNull then
        process_value reg [("base_url", baseUrl)] v cfg.processors
      else v
    if !v.isNull then v else jsonDefault cfg

/-- One JSON-mode record. -/
def mkJsonRec (reg : Registry Json) (baseUrl : String)
    (inst : CollectInstruction) (item : Json) : Rec :=
  inst.fields.map (fun nc => (nc.1, jsonFieldValue reg baseUrl item nc.2))

/-- The item list of `_process_json_collection`: containers by path, items
by path within them, a non-list wrapped into a singleton and `None` into
the empty list. -/
def jsonItems (inst : CollectInstruction) (data : Json) : List Json :=
  match extract (extract data inst.container_selector) inst.item_selector with
  | .arr xs => xs
  | .null => []
  | v => [v]

/-- `ScraperPipeline._process_json_collection`: the records appended to
`result.events` (falsy container data collects nothing). -/
def processJsonCollection (reg : Registry Json) (baseUrl : String)
    (inst : CollectInstruction) (data : Json) : List Rec :=
  if !(extract data inst.container_selector).pyTruthy then []
  else limitedCollect inst.limit (mkJsonRec reg baseUrl inst) [] (jsonItems inst data)

/-- `scraper_pipeline.ScrapingResult` (timing is wall-clock; it is
modelled as the presence of the finalisation markers, with the duration
entry's numeric value stubbed to 0). -/
structure ScrapingResult where
  events : List Rec := []
  markets : List Rec := []
  selections : List Rec := []
  errors : List String := []
  metadata : List (String × Nat) := []
  endTimeSet : Bool := false

/-- `ScrapingResult.add_error`. -/
def ScrapingResult.addError (r : ScrapingResult) (e : String) : ScrapingResult :=
  { r with errors := r.errors ++ [e] }

/-- Python dict assignment `metadata[k] = v` (latest assignment wins on
lookup). -/
def setMeta (m : List (String × Nat)) (k : String) (v : Nat) :
    List (String × Nat) :=
  (k, v) :: m.filter (fun kv => kv.1 != k)

/-- `ScrapingResult.finalize`: sets the end time and the five metadata
entries. -/
def ScrapingResult.finalize (r : ScrapingResult) : ScrapingResult :=
  { r with
    endTimeSet := true
    metadata :=
      setMeta (setMeta (setMeta (setMeta (setMeta r.metadata
        "duration_seconds" 0)
        "total_events" r.events.length)
        "total_markets" r.markets.length)
        "total_selections" r.selections.length)
        "error_count" r.errors.length }

/-- Oracles for `ScraperPipeline.run`: fetcher creation
(`FetcherFactory.create`, may raise), the selected scraping phase
(mutates the result and may raise, e.g. out of `_run_interactive_scraping`'s
`finally`), and `_persist_results` (may raise).  `fetcher.cleanup()` in
the `finally` is outside the claim's scope and modelled as not raising. -/
structure RunOracle where
  create : Except Unit Unit
  scrape : ScrapingResult → (Except Unit Unit) × ScrapingResult
  persist : ScrapingResult → (Except Unit Unit) × ScrapingResult

/-- The `try/except` block of `ScraperPipeline.run`: any exception from
fetcher creation, the scraping phase, or persistence is caught and
recorded as a pipeline error. -/
def runTryBlock (o : RunOracle) : ScrapingResult :=
  match o.create with
  | .error _ => ScrapingResult.addError {} "Pipeline error"
  | .ok _ =>
    match o.scrape {} with
    | (.error _, r1) => r1.addError "Pipeline error"
    | (.ok _, r1) =>
      match o.persist r1 with
      | (.error _, r2) => r2.addError "Pipeline error"
      | (.ok _, r2) => r2

/-- `ScraperPipeline.run`: the `try/except` block followed by the
`finally` block, which always finalizes; the result is always returned. -/
def runPipeline (o : RunOracle) : ScrapingResult :=
  (runTryBlock o).finalize

/-- `config_schema.ClickInstruction`. -/
structure ClickInstruction where
  selector : String
  wait_after : Option WaitCondition := none
  optional : Bool := false
  all_matching : Bool := false

/-- Oracles for `ClickHandler.execute`: page and element calls.
`clickSingle` is `page.click(selector, timeout=10000)`, whose
`PlaywrightTimeoutError` is handled separately from other exceptions. -/
structure ClickEnv (ε : Type) where
  page : PageEnv
  queryAll : String → Except Unit (List ε)
  isVisible : ε → Except Unit Bool
  clickEl : ε → Except Unit Unit
  clickSingle : String → Except PwErr Unit

/-- The per-element loop of the `all_matching` branch: each element's
visibility check and click sit in their own `try`, so individual failures
only skip that element. -/
def clickAllLoop {ε : Type} (env : ClickEnv ε) : List ε → Nat
  | [] => 0
  | e :: rest =>
    match env.isVisible e with
    | .error _ => clickAllLoop env rest
    | .ok false => clickAllLoop env rest
    | .ok true =>
      match env.clickEl e with
      | .error _ => clickAllLoop env rest
      | .ok _ => clickAllLoop env rest + 1

/-- `ClickHandler.execute`: the outer `except` returns
`not instruction.optional`; `wait_after` goes through
`handle_wait_condition`, which never raises and whose result is
discarded. -/
def click_execute {ε : Type} (env : ClickEnv ε) (inst : ClickInstruction) :
    Bool :=
  if inst.all_matching then
    match env.queryAll inst.selector with
    | .error _ => !inst.optional
    | .ok elements =>
      if elements.isEmpty && !inst.optional then false
      else
        let _ := clickAllLoop env elements
        let _ := inst.wait_after.map (fun wc => handle_wait_condition env.page wc)
        true
  else
    match env.clickSingle inst.selector with
    | .ok _ =>
      let _ := inst.wait_after.map (fun wc => handle_wait_condition env.page wc)
      true
    | .error .timeout =>
      if !inst.optional then false
      else
        let _ := inst.wait_after.map (fun wc => handle_wait_condition env.page wc)
        true
    | .error .other => !inst.optional

/-- `ScraperPipeline._process_collected_data`: route each record of a
named collection into a result bucket by substring tests on the
lowercased collection name (`_process_item_fields` copies the record
unchanged). -/
def routeRecord (name : String) (acc : ScrapingResult) (item : Rec) :
    ScrapingResult :=
  if strContainsSub (pyLower name) "event" then
    { acc with events := acc.events ++ [item] }
  else if strContainsSub (pyLower name) "market" then
    { acc with markets := acc.markets ++ [item] }
  else if strContainsSub (pyLower name) "selection" ||
      strContainsSub (pyLower name) "odds" then
    { acc with selections := acc.selections ++ [item] }
  else
    { acc with events := acc.events ++ [item] }

/-- The loop of `_process_collected_data` over a collection's records. -/
def processCollectedData (name : String) (items : List Rec)
    (r : ScrapingResult) : ScrapingResult :=
  items.foldl (routeRecord name) r


/-- A page on which every selector matches exactly one element. -/
def pageOneMatch : PageEnv :=
  { url := "", waitForSelector := fun _ => .ok (),
    queryAllCount := fun _ => .ok 1 }

/-- A page whose element queries raise. -/
def pageQueryFails : PageEnv :=
  { url := "", waitForSelector := fun _ => .ok (),
    queryAllCount := fun _ => .error () }

/-- A registry over `Int` with an incrementing, a raising, and a doubling
processor. -/
def exampleRegistry : Registry Int := fun n =>
  if n = "inc" then some (fun v _ => .ok (v + 1))
  else if n = "boom" then some (fun _ _ => .error ())
  else if n = "dbl" then some (fun v _ => .ok (v * 2))
  else none

/-- A chain whose middle step raises. -/
def exampleChain : List ProcCfg :=
  [ProcCfg.nameOnly "inc", ProcCfg.nameOnly "boom", ProcCfg.nameOnly "dbl"]

/-- An executor environment over `String` instructions and `Nat` state
whose only handler mutates the state and then raises. -/
def execEnvEx : ExecEnv String Nat :=
  { typeOf := fun i => i,
    table := fun t =>
      if t = "boom" then some (fun _ s => (Except.error (), s + 1)) else none }

/-- A loop environment over the trivial state. -/
def trivialLoopEnv : LoopEnv Unit :=
  { runBody := fun s => s, evalCond := fun _ s => (true, s),
    pagStep := fun s => (.ok .notFound, s), getOptions := fun s => (.ok [], s),
    selectOpt := fun _ _ s => (.ok (), s), setLoopIndex := fun _ s => s }

/-- A while loop capped at 5 iterations. -/
def whileTrueInst : LoopInstruction :=
  { iterator := "while", max_iterations := 5,
    while_condition := some { type := .timeout, value := .i 0 } }

/-- A DOM in which only selector `.b` resolves, with text `B`. -/
def domScenarioC : Dom Nat :=
  { queryAll := fun _ _ => .ok [],
    query := fun _ sel => if sel = ".b" then .ok (some 1) else .ok none,
    textContent := fun _ => .ok (some "B"), getAttr := fun _ _ => .ok none }

/-- A click environment whose page query and single click raise. -/
def clickEnvEx : ClickEnv Unit :=
  { page := pageOneMatch, queryAll := fun _ => .error (),
    isVisible := fun _ => .ok true, clickEl := fun _ => .ok (),
    clickSingle := fun _ => .error .other }

/-- An optional all-matching click. -/
def clickInstEx : ClickInstruction :=
  { selector := "s", optional := true, all_matching := true }

/-- A run whose scrape phase records one error and whose persistence
phase raises. -/
def runOracleEx : RunOracle :=
  { create := .ok (), scrape := fun r => (.ok (), r.addError "boom"),
    persist := fun r => (.error (), r) }

/-- A DOM with one container (selector `c`) holding one item (selector
`i`). -/
def domLimitZero : Dom Unit :=
  { queryAll := fun _ sel =>
      if sel = "c" then .ok [()] else if sel = "i" then .ok [()] else .ok [],
    query := fun _ _ => .ok none, textContent := fun _ => .ok none,
    getAttr := fun _ _ => .ok none }

/-- A collect instruction with `limit = 0`. -/
def collectLimitZeroInst : CollectInstruction :=
  { name := "x", container_selector := "c", item_selector := "i",
    fields := [], limit := some 0 }

/-- Scenario B payload: three events under `data.events`. -/
def scenarioBData : Json :=
  Json.obj [("data", Json.obj [("events", Json.arr
    [Json.obj [("id", Json.num 1)], Json.obj [("id", Json.num 2)],
     Json.obj [("id", Json.num 3)]])])]

/-- Scenario B collect instruction: container `data.events`, identity
item path, `limit = 2`. -/
def scenarioBInst : CollectInstruction :=
  { name := "events", container_selector := "data.events",
    item_selector := "$",
    fields := [("id", { selector := SelSpec.one "id" })], limit := some 2 }

/-- A registry with no processors. -/
def emptyRegistry : Registry Json := fun _ => none

/-- A result of a primitive carries no exception outside the caught
classes. -/
def noUncaught {α : Type} : Except PyErr α → Bool
  | .error .other => false
  | _ => true

lemma exBind_noUncaught {α β : Type} (r : Except PyErr α)
    (f : α → Except PyErr β) (hr : noUncaught r = true)
    (hf : ∀ x, noUncaught (f x) = true) : noUncaught (exBind r f) = true := by
  cases r with
  | error e => cases e <;> simp_all [noUncaught, exBind]
  | ok x => simpa [exBind] using hf x

lemma pyToList_noUncaught (j : Json) : noUncaught (pyToList j) = true := by
  cases j <;> rfl

lemma pyGetField_noUncaught (j : Json) (k : String) :
    noUncaught (pyGetField j k) = true := by
  cases j
  case obj kvs => cases hl : kvs.lookup k <;> simp [pyGetField, hl, noUncaught]
  all_goals rfl

lemma pyGetIndex_noUncaught (j : Json) (i : Int) :
    noUncaught (pyGetIndex j i) = true := by
  cases j
  case arr xs =>
    simp only [pyGetIndex]
    split <;> split <;> rfl
  case str s =>
    simp only [pyGetIndex]
    split <;> split <;> rfl
  all_goals rfl

lemma pySliceList_noUncaught (j : Json) (s e : Option Int) :
    noUncaught (pySliceList j s e) = true := by
  cases j <;> rfl

lemma pyInt_noUncaught (s : String) : noUncaught (pyInt s) = true := by
  cases h : pyIntParse s <;> simp [pyInt, h, noUncaught]

lemma parseBound_noUncaught (p : String) : noUncaught (parseBound p) = true := by
  unfold parseBound
  split
  · rfl
  · exact exBind_noUncaught _ _ (pyInt_noUncaught p) (fun n => rfl)

lemma handleArrayAccessExc_noUncaught (d : Json) (s : String) :
    noUncaught (handleArrayAccessExc d s) = true := by
  unfold handleArrayAccessExc
  dsimp only
  split
  · exact exBind_noUncaught _ _ (pyToList_noUncaught d) (fun l => rfl)
  · split
    · refine exBind_noUncaught _ _ (parseBound_noUncaught _) (fun start => ?_)
      refine exBind_noUncaught _ _ (parseBound_noUncaught _) (fun stop => ?_)
      exact exBind_noUncaught _ _ (pySliceList_noUncaught d start stop)
        (fun l => rfl)
    · exact exBind_noUncaught _ _ (pyInt_noUncaught _)
        (fun i => pyGetIndex_noUncaught d i)

lemma handleArrayAccess_noUncaught (d : Json) (s : String) :
    noUncaught (handleArrayAccess d s) = true := by
  have hx := handleArrayAccessExc_noUncaught d s
  unfold handleArrayAccess
  cases h : handleArrayAccessExc d s with
  | ok v => rfl
  | error e =>
    rw [h] at hx
    cases e <;> simp_all [noUncaught]

lemma processPart_noUncaught (cur : Json) (part : String) :
    noUncaught (processPart cur part) = true := by
  unfold processPart
  dsimp only
  split
  · refine exBind_noUncaught _ _ ?_ (fun c => handleArrayAccess_noUncaught c _)
    split
    · rfl
    · exact pyGetField_noUncaught cur _
  · exact pyGetField_noUncaught cur part

lemma foldParts_noUncaught (parts : List String) (cur : Json) :
    noUncaught (foldParts parts cur) = true := by
  induction parts generalizing cur with
  | nil => rfl
  | cons p rest ih =>
    exact exBind_noUncaught _ _ (processPart_noUncaught cur p) (fun c => ih c)

lemma extractInner_noUncaught (data : Json) (path : String) :
    noUncaught (extractInner data path) = true := by
  unfold extractInner
  dsimp only
  split
  · split
    · rfl
    · split
      · exact handleArrayAccess_noUncaught data _
      · exact foldParts_noUncaught _ data
  · split
    · rfl
    · split
      · exact handleArrayAccess_noUncaught data _
      · exact foldParts_noUncaught _ data

/-- Claim C7: `JSONPathExtractor.extract` is total over JSON values and
path strings: the `except (KeyError, IndexError, TypeError, ValueError)`
clause covers every exception its body can raise — nothing propagates to
the caller — and any such internal failure (a missing or inapplicable
path segment) makes it return `None`. -/
theorem extract_is_total (data : Json) (path : String) :
    extractChecked data path = Except.ok (extract data path) ∧
    (∀ e, extractInner data path = Except.error e →
      extract data path = Json.null) := by
  constructor
  · cases h : extractInner data path with
    | ok v => simp [extractChecked, extract, h]
    | error e =>
      have hn := extractInner_noUncaught data path
      rw [h] at hn
      cases e
      case other => simp [noUncaught] at hn
      all_goals simp [extractChecked, extract, h]
  · intro e h
    simp [extract, h]

/-- Witness for C7 at a concrete input: looking up the missing field `b`
raises `KeyError` internally and `extract` returns `None`. -/
theorem extract_is_total_witness :
    extractInner (Json.obj [("a", Json.num 1)]) ".b" =
      Except.error PyErr.keyError ∧
    extract (Json.obj [("a", Json.num 1)]) ".b" = Json.null :=
  ⟨rfl,
   (extract_is_total (Json.obj [("a", Json.num 1)]) ".b").2 PyErr.keyError rfl⟩

lemma routing_event (name : String) (items : List Rec) (r : ScrapingResult)
    (h : strContainsSub (pyLower name) "event" = true) :
    processCollectedData name items r = { r with events := r.events ++ items } := by
  induction items generalizing r with
  | nil => simp [processCollectedData]
  | cons i rest ih =>
    simp only [processCollectedData, List.foldl_cons] at ih ⊢
    rw [show routeRecord name r i = { r with events := r.events ++ [i] } by
      simp [routeRecord, h]]
    rw [ih]
    simp

lemma routing_market (name : String) (items : List Rec) (r : ScrapingResult)
    (h1 : strContainsSub (pyLower name) "event" = false)
    (h2 : strContainsSub (pyLower name) "market" = true) :
    processCollectedData name items r = { r with markets := r.markets ++ items } := by
  induction items generalizing r with
  | nil => simp [processCollectedData]
  | cons i rest ih =>
    simp only [processCollectedData, List.foldl_cons] at ih ⊢
    rw [show routeRecord name r i = { r with markets := r.markets ++ [i] } by
      simp [routeRecord, h1, h2]]
    rw [ih]
    simp

lemma routing_selection (name : String) (items : List Rec) (r : ScrapingResult)
    (h1 : strContainsSub (pyLower name) "event" = false)
    (h2 : strContainsSub (pyLower name) "market" = false)
    (h3 : strContainsSub (pyLower name) "selection" = true ∨
      strContainsSub (pyLower name) "odds" = true) :
    processCollectedData name items r =
      { r with selections := r.selections ++ items } := by
  induction items generalizing r with
  | nil => simp [processCollectedData]
  | cons i rest ih =>
    simp only [processCollectedData, List.foldl_cons] at ih ⊢
    rw [show routeRecord name r i = { r with selections := r.selections ++ [i] } by
      rcases h3 with h3 | h3 <;> simp [routeRecord, h1, h2, h3]]
    rw [ih]
    simp

lemma routing_default (name : String) (items : List Rec) (r : ScrapingResult)
    (h1 : strContainsSub (pyLower name) "event" = false)
    (h2 : strContainsSub (pyLower name) "market" = false)
    (h3 : strContainsSub (pyLower name) "selection" = false)
    (h4 : strContainsSub (pyLower name) "odds" = false) :
    processCollectedData name items r = { r with events := r.events ++ items } := by
  induction items generalizing r with
  | nil => simp [processCollectedData]
  | cons i rest ih =>
    simp only [processCollectedData, List.foldl_cons] at ih ⊢
    rw [show routeRecord name r i = { r with events := r.events ++ [i] } by
      simp [routeRecord, h1, h2, h3, h4]]
    rw [ih]
    simp

/-- Claim C10: records of a named collection are routed by substring
precedence on the lowercased name — `event` to the events bucket, else
`market` to markets, else `selection` or `odds` to selections, else
events; a name containing both `selection` and `event` therefore lands in
events. -/
theorem collection_bucket_routing (name : String) (items : List Rec)
    (r : ScrapingResult) :
    (strContainsSub (pyLower name) "event" = true →
      processCollectedData name items r =
        { r with events := r.events ++ items }) ∧
    (strContainsSub (pyLower name) "event" = false →
      strContainsSub (pyLower name) "market" = true →
      processCollectedData name items r =
        { r with markets := r.markets ++ items }) ∧
    (strContainsSub (pyLower name) "event" = false →
      strContainsSub (pyLower name) "market" = false →
      (strContainsSub (pyLower name) "selection" = true ∨
        strContainsSub (pyLower name) "odds" = true) →
      processCollectedData name items r =
        { r with selections := r.selections ++ items }) ∧
    (strContainsSub (pyLower name) "event" = false →
      strContainsSub (pyLower name) "market" = false →
      strContainsSub (pyLower name) "selection" = false →
      strContainsSub (pyLower name) "odds" = false →
      processCollectedData name items r =
        { r with events := r.events ++ items }) :=
  ⟨fun h => routing_event name items r h,
   fun h1 h2 => routing_market name items r h1 h2,
   fun h1 h2 h3 => routing_selection name items r h1 h2 h3,
   fun h1 h2 h3 h4 => routing_default name items r h1 h2 h3 h4⟩

/-- Witness for C10: the collection name `selection_events` contains
`event`, so its single record is appended to the events bucket even
though the name also contains `selection`. -/
theorem collection_bucket_routing_witness :
    strContainsSub (pyLower "selection_events") "event" = true ∧
    strContainsSub (pyLower "selection_events") "selection" = true ∧
    processCollectedData "selection_events" [[("k", Json.str "v")]] {} =
      { ScrapingResult.mk [[("k", Json.str "v")]] [] [] [] [] false with
        events := [[("k", Json.str "v")]] } :=
  ⟨rfl, rfl,
   (collection_bucket_routing "selection_events" [[("k", Json.str "v")]] {}).1 rfl⟩

/-- Counterexample to C4 as stated: on a page with exactly one element
matching `x`, the evaluator answers `true`, yet "count of matches ≥
target" is false for a target count of 2 — the evaluator ignores the
target count. -/
theorem element_count_target_counterexample :
    handle_wait_condition pageOneMatch
      { type := CondType.element_count, value := CondValue.s "x" } = true ∧
    elementCountAtLeastSpec pageOneMatch "x" 2 = false :=
  ⟨rfl, rfl⟩

/-- Claim C4 (amended): an `element_count` condition evaluates to true iff
at least one element matches the selector in its `value` field — i.e. it
behaves as `ElementCountAtLeast` with target fixed to 1, whatever target
the configuration intended — and an internal error evaluates to false
(the evaluator never throws). -/
theorem element_count_condition (p : PageEnv) (sel : String)
    (tms : Option Int) :
    handle_wait_condition p
      { type := CondType.element_count, value := CondValue.s sel,
        timeout_ms := tms } = elementCountAtLeastSpec p sel 1 ∧
    (∀ e, p.queryAllCount sel = Except.error e →
      handle_wait_condition p
        { type := CondType.element_count, value := CondValue.s sel,
          timeout_ms := tms } = false) := by
  constructor
  · simp only [handle_wait_condition, elementCountAtLeastSpec]
    cases h : p.queryAllCount sel with
    | ok n => rfl
    | error e => rfl
  · intro e h
    simp [handle_wait_condition, h]

/-- Witness for C4 (amended) on a page whose query raises: the condition
evaluates to false. -/
theorem element_count_condition_witness :
    handle_wait_condition pageQueryFails
      { type := CondType.element_count, value := CondValue.s "x",
        timeout_ms := some 30000 } = false :=
  (element_count_condition pageQueryFails "x" (some 30000)).2 () rfl

/-- Counterexample to C5 as stated: with the chain inc-boom-dbl on input
1, the code applies `dbl` after `boom` raised (result 4), while a
short-circuiting chain would stop at the last successful value 2. -/
theorem processor_chain_counterexample :
    process_value exampleRegistry [] 1 exampleChain ≠
      process_value_spec exampleRegistry [] 1 exampleChain := by
  decide

/-- Claim C5 (amended): steps are applied in declared order; a step whose
resolved processor raises is skipped — the value is left at the last
successfully produced one — and the chain continues with the remaining
steps (it does not short-circuit), so a step failure never fails the
field or the record. -/
theorem processor_chain_continues (α : Type) (reg : Registry α) (ctx : Args)
    (v : α) (ps qs : List ProcCfg) (cfg : ProcCfg) :
    process_value reg ctx v (ps ++ cfg :: qs) =
      process_value reg ctx (stepFn reg ctx (process_value reg ctx v ps) cfg)
        qs ∧
    (∀ e, resolveStep reg ctx cfg (process_value reg ctx v ps) =
        some (Except.error e) →
      process_value reg ctx v (ps ++ cfg :: qs) =
        process_value reg ctx (process_value reg ctx v ps) qs) := by
  constructor
  · simp [process_value, List.foldl_append]
  · intro e h
    simp only [process_value] at h
    simp [process_value, List.foldl_append, stepFn, h]

/-- Witness for C5 (amended) at the inc-boom-dbl chain: `boom` raises on
the accumulated value, and the run of the full chain equals the run of
the tail on the value accumulated before `boom`. -/
theorem processor_chain_continues_witness :
    resolveStep exampleRegistry [] (ProcCfg.nameOnly "boom")
      (process_value exampleRegistry [] 1 [ProcCfg.nameOnly "inc"]) =
      some (Except.error ()) ∧
    process_value exampleRegistry [] 1
      ([ProcCfg.nameOnly "inc"] ++ ProcCfg.nameOnly "boom" ::
        [ProcCfg.nameOnly "dbl"]) =
      process_value exampleRegistry []
        (process_value exampleRegistry [] 1 [ProcCfg.nameOnly "inc"])
        [ProcCfg.nameOnly "dbl"] :=
  ⟨rfl,
   (processor_chain_continues Int exampleRegistry [] 1 [ProcCfg.nameOnly "inc"]
     [ProcCfg.nameOnly "dbl"] (ProcCfg.nameOnly "boom")).2 () rfl⟩

/-- Claim C2: `execute_instructions` runs strictly in order and always
proceeds to the next sibling (it returns `True` whatever the individual
results), and `execute_instruction` converts a handler exception into a
`false` return instead of re-raising. -/
theorem executor_fail_soft (ι σ : Type) (env : ExecEnv ι σ) (xs ys l : List ι)
    (s : σ) :
    execute_instructions env (xs ++ ys) s =
      execute_instructions env ys (execute_instructions env xs s).2 ∧
    (execute_instructions env l s).1 = true ∧
    (∀ (i : ι) (h : ι → σ → (Except Unit Bool) × σ) (e : Unit) (s2 : σ),
      env.table (env.typeOf i) = some h → h i s = (Except.error e, s2) →
      execute_instruction env i s = (false, s2)) := by
  refine ⟨?_, ?_, ?_⟩
  · induction xs generalizing s with
    | nil => rfl
    | cons i rest ih => exact ih (execute_instruction env i s).2
  · induction l generalizing s with
    | nil => rfl
    | cons i rest ih => exact ih (execute_instruction env i s).2
  · intro i h e s2 ht hh
    simp [execute_instruction, ht, hh]

/-- Witness for C2 on the raising handler: the exception becomes a
`false` result (with the handler's state mutation kept). -/
theorem executor_fail_soft_witness :
    execute_instruction execEnvEx "boom" 0 = (false, 1) :=
  (executor_fail_soft String Nat execEnvEx [] [] [] 0).2.2 "boom"
    (fun _ s => (Except.error (), s + 1)) () 1 rfl rfl

lemma paginationLoop_le {σ : Type} (env : LoopEnv σ) (inst : LoopInstruction)
    (fuel : Nat) (s : σ) : (paginationLoop env inst fuel s).2 ≤ fuel := by
  induction fuel generalizing s with
  | zero => simp [paginationLoop]
  | succ n ih =>
    unfold paginationLoop
    dsimp only
    split
    · simp
    · split
      · simp
      · simp
      · simp
      · simpa using Nat.succ_le_succ (ih _)

lemma dropdownBody_le {σ : Type} (env : LoopEnv σ) (inst : LoopInstruction)
    (opts : List String) (i counter : Nat) (s : σ) :
    (dropdownBody env inst opts i counter s).2.1 ≤
      inst.max_iterations - counter := by
  induction opts generalizing i counter s with
  | nil => simp [dropdownBody]
  | cons o rest ih =>
    unfold dropdownBody
    dsimp only
    by_cases hge : inst.max_iterations ≤ counter
    · simp [hge]
    · rw [if_neg hge]
      cases hsel : env.selectOpt o i s with
      | mk res s2 =>
        cases res with
        | error e => simp
        | ok u =>
          have h := ih (i + 1) (counter + 1) (env.runBody s2)
          dsimp only
          omega

lemma countLoopGo_le {σ : Type} (env : LoopEnv σ) (inst : LoopInstruction)
    (n i counter : Nat) (s : σ) :
    (countLoopGo env inst n i counter s).2 ≤ inst.max_iterations - counter := by
  induction n generalizing i counter s with
  | zero => simp [countLoopGo]
  | succ m ih =>
    unfold countLoopGo
    dsimp only
    by_cases hge : inst.max_iterations ≤ counter
    · simp [hge]
    · rw [if_neg hge]
      have h := ih (i + 1) (counter + 1) (env.runBody (env.setLoopIndex i s))
      dsimp only
      omega

lemma whileLoopGo_le {σ : Type} (env : LoopEnv σ) (wc : WaitCondition)
    (fuel : Nat) (s : σ) : (whileLoopGo env wc fuel s).2 ≤ fuel := by
  induction fuel generalizing s with
  | zero => simp [whileLoopGo]
  | succ n ih =>
    unfold whileLoopGo
    dsimp only
    split
    · simp
    · simpa using Nat.succ_le_succ (ih _)

lemma whileLoopGo_exact {σ : Type} (env : LoopEnv σ) (wc : WaitCondition)
    (hc : ∀ s', (env.evalCond wc s').1 = true) (fuel : Nat) (s : σ) :
    (whileLoopGo env wc fuel s).2 = fuel := by
  induction fuel generalizing s with
  | zero => rfl
  | succ n ih =>
    unfold whileLoopGo
    dsimp only
    rw [hc s]
    simpa using ih _

/-- Claim C1: every loop strategy executes the nested instruction list at
most `max_iterations` times, and a while loop whose condition always
evaluates true with `max_iterations = 5` executes it exactly 5 times. -/
theorem loop_iteration_caps (σ : Type) (env : LoopEnv σ)
    (inst : LoopInstruction) (s : σ) (wc : WaitCondition) :
    (pagination_execute env inst s).2.2 ≤ inst.max_iterations ∧
    (dropdown_execute env inst s).2.2 ≤ inst.max_iterations ∧
    (count_execute env inst s).2.2 ≤ inst.max_iterations ∧
    (while_execute env inst s).2.2 ≤ inst.max_iterations ∧
    (inst.while_condition = some wc →
      (∀ s', (env.evalCond wc s').1 = true) →
      inst.max_iterations = 5 →
      (while_execute env inst s).2.2 = 5) := by
  refine ⟨?_, ?_, ?_, ?_, ?_⟩
  · cases h : inst.next_selector with
    | none => simp [pagination_execute, h]
    | some ns =>
      by_cases hn : ns = ""
      · simp [pagination_execute, h, hn]
      · simpa [pagination_execute, h, hn] using
          paginationLoop_le env inst inst.max_iterations s
  · cases h : inst.dropdown_selector with
    | none => simp [dropdown_execute, h]
    | some ds =>
      by_cases hn : ds = ""
      · simp [dropdown_execute, h, hn]
      · cases h2 : env.getOptions s with
        | mk res s2 =>
          cases res with
          | error e => simp [dropdown_execute, h, hn, h2]
          | ok opts =>
            have hb := dropdownBody_le env inst
              (opts.drop (if inst.skip_first_option then 1 else 0))
              (if inst.skip_first_option then 1 else 0) 0 s2
            simp only [dropdown_execute, h, hn, h2]
            simp only [Nat.sub_zero] at hb
            simpa using hb
  · cases h : inst.count with
    | none => simp [count_execute, h]
    | some c =>
      cases c with
      | zero => simp [count_execute, h]
      | succ m =>
        have hb := countLoopGo_le env inst (m + 1) 0 0 s
        simp only [count_execute, h]
        simp only [Nat.sub_zero] at hb
        simpa using hb
  · cases h : inst.while_condition with
    | none => simp [while_execute, h]
    | some wc2 =>
      simpa [while_execute, h] using
        whileLoopGo_le env wc2 inst.max_iterations s
  · intro hw hc h5
    simp only [while_execute, hw]
    simpa [h5] using whileLoopGo_exact env wc hc inst.max_iterations s

/-- Witness for C1: the always-true while loop capped at 5 runs its body
exactly 5 times. -/
theorem loop_iteration_caps_witness :
    (while_execute trivialLoopEnv whileTrueInst ()).2.2 = 5 :=
  (loop_iteration_caps Unit trivialLoopEnv whileTrueInst ()
    { type := .timeout, value := .i 0 }).2.2.2.2 rfl (fun _ => rfl) rfl

lemma firstMatch_none {ε : Type} (d : Dom ε) (e : ε) (ss : List String)
    (h : ∀ s ∈ ss, d.query e s = Except.ok none ∨
      d.query e s = Except.error ()) : firstMatch d e ss = none := by
  induction ss with
  | nil => rfl
  | cons s rest ih =>
    rcases h s (List.mem_cons_self s rest) with h1 | h1
    · simp only [firstMatch, h1]
      exact ih (fun t ht => h t (List.mem_cons_of_mem s ht))
    · simp only [firstMatch, h1]
      exact ih (fun t ht => h t (List.mem_cons_of_mem s ht))

/-- Claim C6: with a list of candidate selectors, the first one that
resolves wins and the remaining candidates are irrelevant; when no
candidate yields a match (including by raising), the field is exactly its
configured default — the empty string when none is configured — and
`_extract_field` returns a value in every case. -/
theorem field_extraction_first_match (ε : Type) (d : Dom ε) (e : ε)
    (sel : String) (t : ε) (rest ss : List String) (a : String)
    (procs : List ProcCfg) (req : Bool) (dflt : Option String) :
    (d.query e sel = Except.ok (some t) →
      extract_field d e ⟨SelSpec.many (sel :: rest), a, procs, req, dflt⟩ =
        extract_field d e ⟨SelSpec.many [sel], a, procs, req, dflt⟩) ∧
    ((∀ s2 ∈ ss, d.query e s2 = Except.ok none ∨
        d.query e s2 = Except.error ()) →
      extract_field d e ⟨SelSpec.many ss, a, procs, req, dflt⟩ =
        dflt.getD "") := by
  constructor
  · intro h
    simp [extract_field, extractFieldRaw, firstMatch, h]
  · intro h
    simp [extract_field, extractFieldRaw, firstMatch_none d e ss h]

/-- Witness for C6 (Scenario C): with candidates `[.a, .b]` where only
`.b` resolves, the `.b` text is returned; dropping candidates after a
successful one changes nothing; an unresolvable selector with default
`DFT` yields exactly `DFT`. -/
theorem field_extraction_first_match_witness :
    extract_field domScenarioC 0
      ⟨SelSpec.many [".a", ".b"], "text", [], false, none⟩ = "B" ∧
    extract_field domScenarioC 0
      ⟨SelSpec.many [".b", ".zz"], "text", [], false, none⟩ =
      extract_field domScenarioC 0
        ⟨SelSpec.many [".b"], "text", [], false, none⟩ ∧
    extract_field domScenarioC 0
      ⟨SelSpec.many [".zz"], "text", [], false, some "DFT"⟩ = "DFT" :=
  ⟨rfl,
   (field_extraction_first_match Nat domScenarioC 0 ".b" 1 [".zz"] []
     "text" [] false none).1 rfl,
   (field_extraction_first_match Nat domScenarioC 0 "" 0 [] [".zz"]
     "text" [] false (some "DFT")).2
     (fun s2 hs2 => by
       simp only [List.mem_singleton] at hs2
       subst hs2
       exact Or.inl rfl)⟩

/-- Claim C9: when an exception other than the single-click timeout
escapes the click logic — the element query raising in `all_matching`
mode, or a non-timeout exception from `page.click` in single mode —
`ClickHandler.execute` returns `not instruction.optional`. -/
theorem click_unexpected_exception (ε : Type) (env : ClickEnv ε)
    (inst : ClickInstruction) :
    (inst.all_matching = true → env.queryAll inst.selector = Except.error () →
      click_execute env inst = !inst.optional) ∧
    (inst.all_matching = false →
      env.clickSingle inst.selector = Except.error PwErr.other →
      click_execute env inst = !inst.optional) := by
  constructor
  · intro ha hq
    simp [click_execute, ha, hq]
  · intro ha hc
    simp [click_execute, ha, hc]

/-- Witness for C9: a raising query in optional all-matching mode makes
the handler return `false` (= not optional). -/
theorem click_unexpected_exception_witness :
    click_execute clickEnvEx clickInstEx = false :=
  (click_unexpected_exception Unit clickEnvEx clickInstEx).1 rfl rfl

lemma lookup_setMeta_same (m : List (String × Nat)) (k : String) (v : Nat) :
    (setMeta m k v).lookup k = some v := by
  simp [setMeta, List.lookup]

lemma lookup_filter_ne (m : List (String × Nat)) (k k2 : String)
    (h : (k2 == k) = false) :
    (m.filter (fun kv => kv.1 != k)).lookup k2 = m.lookup k2 := by
  induction m with
  | nil => rfl
  | cons kv rest ih =>
    by_cases hkv : kv.1 = k
    · have hne : (k2 == kv.1) = false := by
        rw [hkv]
        exact h
      simp [List.filter_cons, hkv, List.lookup, hne, ih, h]
    · simp [List.filter_cons, hkv, List.lookup, ih]

lemma lookup_setMeta_ne (m : List (String × Nat)) (k k2 : String) (v : Nat)
    (h : (k2 == k) = false) :
    (setMeta m k v).lookup k2 = m.lookup k2 := by
  simp only [setMeta, List.lookup, h]
  exact lookup_filter_ne m k k2 h

lemma finalize_meta (r : ScrapingResult) :
    r.finalize.endTimeSet = true ∧
    r.finalize.metadata.lookup "error_count" = some r.errors.length ∧
    r.finalize.metadata.lookup "total_events" = some r.events.length ∧
    r.finalize.metadata.lookup "total_markets" = some r.markets.length ∧
    r.finalize.metadata.lookup "total_selections" =
      some r.selections.length ∧
    (r.finalize.metadata.lookup "duration_seconds").isSome = true := by
  refine ⟨rfl, ?_, ?_, ?_, ?_, ?_⟩
  · exact lookup_setMeta_same _ _ _
  · rw [show r.finalize.metadata =
      setMeta (setMeta (setMeta (setMeta (setMeta r.metadata
        "duration_seconds" 0) "total_events" r.events.length)
        "total_markets" r.markets.length)
        "total_selections" r.selections.length)
        "error_count" r.errors.length from rfl]
    rw [lookup_setMeta_ne _ _ _ _ (by decide),
      lookup_setMeta_ne _ _ _ _ (by decide),
      lookup_setMeta_ne _ _ _ _ (by decide)]
    exact lookup_setMeta_same _ _ _
  · rw [show r.finalize.metadata =
      setMeta (setMeta (setMeta (setMeta (setMeta r.metadata
        "duration_seconds" 0) "total_events" r.events.length)
        "total_markets" r.markets.length)
        "total_selections" r.selections.length)
        "error_count" r.errors.length from rfl]
    rw [lookup_setMeta_ne _ _ _ _ (by decide),
      lookup_setMeta_ne _ _ _ _ (by decide)]
    exact lookup_setMeta_same _ _ _
  · rw [show r.finalize.metadata =
      setMeta (setMeta (setMeta (setMeta (setMeta r.metadata
        "duration_seconds" 0) "total_events" r.events.length)
        "total_markets" r.markets.length)
        "total_selections" r.selections.length)
        "error_count" r.errors.length from rfl]
    rw [lookup_setMeta_ne _ _ _ _ (by decide)]
    exact lookup_setMeta_same _ _ _
  · rw [show r.finalize.metadata =
      setMeta (setMeta (setMeta (setMeta (setMeta r.metadata
        "duration_seconds" 0) "total_events" r.events.length)
        "total_markets" r.markets.length)
        "total_selections" r.selections.length)
        "error_count" r.errors.length from rfl]
    rw [lookup_setMeta_ne _ _ _ _ (by decide),
      lookup_setMeta_ne _ _ _ _ (by decide),
      lookup_setMeta_ne _ _ _ _ (by decide),
      lookup_setMeta_ne _ _ _ _ (by decide),
      lookup_setMeta_same]
    rfl

/-- Claim C8: `ScraperPipeline.run` always returns a finalized result —
end time marked, the three record counts and the error count set in the
metadata, a duration entry present — whatever the outcomes of fetcher
creation, scraping, and persistence (no such failure escapes); and when
creation succeeds and persistence only appends errors, the returned
result carries every error the scraping phase accumulated. -/
theorem run_always_finalizes (o : RunOracle) :
    (runPipeline o).endTimeSet = true ∧
    (runPipeline o).metadata.lookup "error_count" =
      some (runPipeline o).errors.length ∧
    (runPipeline o).metadata.lookup "total_events" =
      some (runPipeline o).events.length ∧
    (runPipeline o).metadata.lookup "total_markets" =
      some (runPipeline o).markets.length ∧
    (runPipeline o).metadata.lookup "total_selections" =
      some (runPipeline o).selections.length ∧
    ((runPipeline o).metadata.lookup "duration_seconds").isSome = true ∧
    (o.create = Except.ok () →
      (∀ x, ∃ es, (o.persist x).2.errors = x.errors ++ es) →
      ∃ es, (runPipeline o).errors = (o.scrape {}).2.errors ++ es) := by
  have hm := finalize_meta (runTryBlock o)
  refine ⟨hm.1, hm.2.1, hm.2.2.1, hm.2.2.2.1, hm.2.2.2.2.1, hm.2.2.2.2.2, ?_⟩
  intro hc hp
  have herr : (runPipeline o).errors = (runTryBlock o).errors := rfl
  rw [herr]
  unfold runTryBlock
  rw [hc]
  cases hs : o.scrape {} with
  | mk res r1 =>
    cases res with
    | error e => exact ⟨["Pipeline error"], rfl⟩
    | ok u =>
      dsimp only
      obtain ⟨es, hes⟩ := hp r1
      cases hper : o.persist r1 with
      | mk res2 r2 =>
        rw [hper] at hes
        cases res2 with
        | error e2 =>
          dsimp only
          refine ⟨es ++ ["Pipeline error"], ?_⟩
          simp only [ScrapingResult.addError]
          simp only at hes
          simp [hes]
        | ok u2 =>
          dsimp only
          refine ⟨es, ?_⟩
          simpa using hes

/-- Witness for C8: with a scrape phase recording one error and a raising
persistence phase, the finalized result still carries the scrape error
(followed by the recorded pipeline error). -/
theorem run_always_finalizes_witness :
    ∃ es, (runPipeline runOracleEx).errors =
      (runOracleEx.scrape {}).2.errors ++ es :=
  (run_always_finalizes runOracleEx).2.2.2.2.2.2 rfl
    (fun x => ⟨[], by simp [runOracleEx]⟩)

lemma limitedCollect_len_nocap {α : Type} (lim : Option Int)
    (hlim : ∀ len, limitReached lim len = false) (mk : α → Rec)
    (acc : List Rec) (xs : List α) :
    (limitedCollect lim mk acc xs).length = acc.length + xs.length := by
  induction xs generalizing acc with
  | nil => simp [limitedCollect]
  | cons x rest ih =>
    unfold limitedCollect
    rw [hlim acc.length]
    simp only [Bool.false_eq_true, if_false]
    rw [ih (acc ++ [mk x])]
    simp
    omega

lemma limitReached_coe (m len : Nat) (hm : 1 ≤ m) :
    limitReached (some (m : Int)) len = decide (m ≤ len) := by
  simp only [limitReached]
  have h1 : ((m : Int) != 0) = true := by
    simp
    omega
  rw [h1, Bool.true_and]
  exact decide_eq_decide.mpr Int.ofNat_le

lemma limitedCollect_len_cap {α : Type} (m : Nat) (hm : 1 ≤ m)
    (mk : α → Rec) (acc : List Rec) (xs : List α) (hacc : acc.length ≤ m) :
    (limitedCollect (some (m : Int)) mk acc xs).length =
      min m (acc.length + xs.length) := by
  induction xs generalizing acc with
  | nil =>
    simp only [limitedCollect, List.length_nil, Nat.add_zero]
    omega
  | cons x rest ih =>
    unfold limitedCollect
    rw [limitReached_coe m acc.length hm]
    by_cases hle : m ≤ acc.length
    · rw [if_pos (by simp [hle])]
      simp only [List.length_cons]
      omega
    · rw [if_neg (by simp [hle])]
      have hacc2 : acc.length + 1 ≤ m := by omega
      rw [ih (acc ++ [mk x]) (by simpa using hacc2)]
      simp only [List.length_append, List.length_cons, List.length_nil]
      omega

lemma collectContainers_count {ε : Type} (d : Dom ε)
    (inst : CollectInstruction) (m : Nat) (hm : 1 ≤ m)
    (hlim : inst.limit = some (m : Int)) (f : ε → List ε) (cs : List ε)
    (hf : ∀ c ∈ cs, d.queryAll c inst.item_selector = Except.ok (f c))
    (acc : List Rec) (hacc : acc.length ≤ m) :
    ∃ recs, collectContainers d inst acc cs = (true, some recs) ∧
      recs.length =
        min m (acc.length + ((cs.map (fun c => (f c).length)).sum)) := by
  induction cs generalizing acc with
  | nil =>
    refine ⟨acc, rfl, ?_⟩
    simp only [List.map_nil, List.sum_nil, Nat.add_zero]
    omega
  | cons c rest ih =>
    unfold collectContainers
    rw [hf c (List.mem_cons_self c rest), hlim]
    dsimp only
    have hlen :
        (limitedCollect (some (m : Int)) (mkDomRec d inst) acc (f c)).length =
          min m (acc.length + (f c).length) :=
      limitedCollect_len_cap m hm _ acc (f c) hacc
    rw [limitReached_coe m _ hm]
    by_cases hr : m ≤
        (limitedCollect (some (m : Int)) (mkDomRec d inst) acc (f c)).length
    · rw [if_pos (by simp [hr])]
      refine ⟨_, rfl, ?_⟩
      simp only [List.map_cons, List.sum_cons]
      omega
    · rw [if_neg (by simp [hr])]
      have hacc2 :
          (limitedCollect (some (m : Int)) (mkDomRec d inst) acc
            (f c)).length ≤ m := by omega
      obtain ⟨recs, h1, h2⟩ :=
        ih (fun c2 hc2 => hf c2 (List.mem_cons_of_mem c hc2)) _ hacc2
      refine ⟨recs, h1, ?_⟩
      simp only [List.map_cons, List.sum_cons]
      omega

/-- Counterexample to C3 as stated: `limit = 0` is falsy in
`if instruction.limit`, so no cap is applied — one container with one
item produces 1 record, not `min(0, 1) = 0`. -/
theorem collect_limit_zero_counterexample :
    producedCount (collect_execute domLimitZero () collectLimitZeroInst) ≠
      Nat.min 0 1 := by
  decide

/-- Claim C3 (amended): for a truthy limit `N ≥ 1` a Collect instruction
produces exactly `min(N, available items)` records, counted across all
containers combined in DOM mode and over the extracted item list in
structured (JSON) mode; a limit of `None` — or the falsy `0` — applies no
cap. -/
theorem collect_limit_semantics (ε : Type) (d : Dom ε) (root : ε)
    (inst : CollectInstruction) (m : Nat) (f : ε → List ε) (cs : List ε)
    (reg : Registry Json) (baseUrl : String) (data : Json) :
    (inst.limit = some (m : Int) → 1 ≤ m →
      d.queryAll root inst.container_selector = Except.ok cs →
      (∀ c ∈ cs, d.queryAll c inst.item_selector = Except.ok (f c)) →
      producedCount (collect_execute d root inst) =
        min m ((cs.map (fun c => (f c).length)).sum)) ∧
    (inst.limit = some (m : Int) → 1 ≤ m →
      (extract data inst.container_selector).pyTruthy = true →
      (processJsonCollection reg baseUrl inst data).length =
        min m (jsonItems inst data).length) ∧
    (inst.limit = none →
      (extract data inst.container_selector).pyTruthy = true →
      (processJsonCollection reg baseUrl inst data).length =
        (jsonItems inst data).length) := by
  refine ⟨?_, ?_, ?_⟩
  · intro hlim hm hc hf
    unfold collect_execute
    rw [hc]
    cases cs with
    | nil => simp [producedCount]
    | cons c rest =>
      dsimp only
      obtain ⟨recs, h1, h2⟩ := collectContainers_count d inst m hm hlim f
        (c :: rest) hf [] (by simp)
      rw [h1]
      simpa [producedCount] using h2
  · intro hlim hm htr
    unfold processJsonCollection
    rw [htr]
    simp only [Bool.not_true, Bool.false_eq_true, if_false]
    rw [hlim]
    rw [limitedCollect_len_cap m hm _ [] _ (by simp)]
    simp
  · intro hlim htr
    unfold processJsonCollection
    rw [htr]
    simp only [Bool.not_true, Bool.false_eq_true, if_false]
    rw [hlim]
    rw [limitedCollect_len_nocap none (fun len => rfl) _ [] _]
    simp

/-- Witness for C3 (amended), Scenario B: three events under
`data.events`, identity item path, `limit = 2` produce exactly 2
records. -/
theorem collect_limit_semantics_witness :
    (processJsonCollection emptyRegistry "u" scenarioBInst
      scenarioBData).length = 2 := by
  have h := (collect_limit_semantics Unit
    { queryAll := fun _ _ => .ok [], query := fun _ _ => .ok none,
      textContent := fun _ => .ok none, getAttr := fun _ _ => .ok none }
    () scenarioBInst 2 (fun _ => []) [] emptyRegistry "u" scenarioBData).2.1
    rfl (by decide) rfl
  rw [h]
  decide
